import Mathlib

/-!
Shallow embedding of the Contact Deduplication & Pipeline Conversion Engine
of the ignitebd-backend repository.

The definitions below are translated from:
- `src/config/pipelineConfig.js`   (pipeline types, per-pipeline stage lists)
- `src/services/PipelineTriggerService.js` (`checkPipelineTriggers`,
  `convertProspectToClient`, `applyPipelineTriggers`)
- `src/routes/Contact/ContactRoutes.js` (GET `/`, GET `/:contactId`,
  POST `/`, POST `/universal-create`, PUT `/:contactId`, DELETE `/:contactId`)

The persistence layer (Prisma + Postgres) is modelled as an in-memory list
database (`DB`).  JavaScript request-body values, which can each be
`undefined`, `null`, or a string, are modelled by `JsVal`; stored nullable
columns are `Option String`.  JavaScript string normalization
(`trim`, `toLowerCase`) is modelled on the character list of a `String`.
-/

namespace IgniteBD

/-! ## JavaScript string and value helpers -/

/-- Model of JavaScript `String.prototype.trim`: remove leading and trailing
whitespace characters. -/
def jsTrim (s : String) : String :=
  ⟨((s.data.dropWhile Char.isWhitespace).reverse.dropWhile Char.isWhitespace).reverse⟩

/-- Model of JavaScript `String.prototype.toLowerCase` (ASCII case folding). -/
def jsLower (s : String) : String :=
  ⟨s.data.map Char.toLower⟩

/-- `email.toLowerCase().trim()` — the email normalization used when storing
emails in `POST /api/contacts`, `POST /api/contacts/universal-create` and when
comparing emails in the universal-create lookup. -/
def normEmail (s : String) : String :=
  jsTrim (jsLower s)

/-- A JavaScript request-body value: absent (`undefined`), `null`, or a
string. -/
inductive JsVal where
  | undef : JsVal
  | null : JsVal
  | str : String → JsVal
deriving DecidableEq

/-- JavaScript truthiness for a `JsVal` (a string is truthy iff non-empty). -/
def JsVal.truthy : JsVal → Bool
  | .str s => s ≠ ""
  | _ => false

/-- What gets stored in a nullable column when a `JsVal` is written as-is
(`undefined` and `null` both store SQL NULL). -/
def JsVal.toStored : JsVal → Option String
  | .str s => some s
  | _ => none

/-- JavaScript `v || existing` where `v` is a request value and `existing` a
stored nullable column (the merge idiom of the POST update paths). -/
def jsOrStored (v : JsVal) (existing : Option String) : Option String :=
  if v.truthy then v.toStored else existing

/-- JavaScript `v || null` (the create idiom `field: field || null`). -/
def jsOrNull (v : JsVal) : Option String :=
  if v.truthy then v.toStored else none

/-- JavaScript `v || "default"` for a stored nullable column
(the idiom `currentPipeline?.pipeline || 'prospect'`). -/
def storedOrDefault (v : Option String) (d : String) : String :=
  match v with
  | some s => if s = "" then d else s
  | none => d

/-- JavaScript `currentPipeline?.stage || null` turned back into a request
value: a stored falsy value behaves like `null`. -/
def storedOrNullVal (v : Option String) : JsVal :=
  match v with
  | some s => if s = "" then .null else .str s
  | none => .null

/-! ## Data model (Prisma schema, `docs/persona_feature.md` excerpt) -/

/-- A row of the `Contact` model.  `crmId` is the tenant (CompanyHQ) id;
all person fields are nullable.  The schema has no uniqueness constraint on
`(crmId, email)`. -/
structure Contact where
  id : String
  crmId : String
  firstName : Option String
  lastName : Option String
  goesBy : Option String
  email : Option String
  phone : Option String
  title : Option String
  contactCompanyId : Option String
  buyerDecision : Option String
  howMet : Option String
  notes : Option String
deriving DecidableEq

/-- A row of the `Company` model (an organization a contact works for),
scoped to a tenant by `companyHQId`. -/
structure Company where
  id : String
  companyHQId : String
  companyName : Option String
  address : Option String
  industry : Option String
  website : Option String
  revenue : Option String
  yearsInBusiness : Option String
deriving DecidableEq

/-- A row of the `Pipeline` model: at most one per contact
(`contactId` is `@unique`), holding the funnel assignment. -/
structure PipelineRow where
  contactId : String
  pipeline : Option String
  stage : Option String
deriving DecidableEq

/-- The in-memory model of the store: tenant ids, company rows, contact rows,
pipeline rows, and a counter used to generate fresh row ids. -/
structure DB where
  companyHQs : List String
  companies : List Company
  contacts : List Contact
  pipelines : List PipelineRow
  nextId : Nat
deriving DecidableEq

/-! ## `src/config/pipelineConfig.js` -/

/-- `OFFICIAL_PIPELINES` from `src/config/pipelineConfig.js`. -/
def OFFICIAL_PIPELINES : List String :=
  ["prospect", "client", "collaborator", "institution"]

/-- `ALL_STAGES` from `src/config/pipelineConfig.js` (kept with its
duplicates, exactly as in the source). -/
def ALL_STAGES : List String :=
  ["interest", "meeting", "proposal", "contract", "contract-signed",
   "kickoff", "work-started", "work-delivered", "sustainment", "renewal",
   "terminated-contract",
   "interest", "meeting", "moa", "agreement",
   "interest", "meeting", "moa", "agreement"]

/-- `PIPELINE_STAGES[pipeline]` with the `|| []` fallback of
`getStagesForPipeline`. -/
def getStagesForPipeline (pipeline : String) : List String :=
  if pipeline = "prospect" then
    ["interest", "meeting", "proposal", "contract", "contract-signed"]
  else if pipeline = "client" then
    ["kickoff", "work-started", "work-delivered", "sustainment", "renewal",
     "terminated-contract"]
  else if pipeline = "collaborator" then
    ["interest", "meeting", "moa", "agreement"]
  else if pipeline = "institution" then
    ["interest", "meeting", "moa", "agreement"]
  else []

/-- `isValidPipeline` from `src/config/pipelineConfig.js`. -/
def isValidPipeline (pipeline : String) : Bool :=
  OFFICIAL_PIPELINES.contains pipeline

/-- `isValidStageForPipeline` from `src/config/pipelineConfig.js`. -/
def isValidStageForPipeline (stage pipeline : String) : Bool :=
  (getStagesForPipeline pipeline).contains stage

/-! ## `src/services/PipelineTriggerService.js` -/

/-- `prisma.pipeline.upsert({ where: { contactId }, update, create })`:
update the row whose `contactId` matches, else append the `create` row.
(`contactId` is `@unique` in the schema, so at most one row matches.) -/
def pipelineUpsert (ps : List PipelineRow) (contactId : String)
    (upd : PipelineRow → PipelineRow) (created : PipelineRow) :
    List PipelineRow :=
  if ps.any (fun r => r.contactId = contactId) then
    ps.map (fun r => if r.contactId = contactId then upd r else r)
  else
    ps ++ [created]

/-- The upsert performed by `convertProspectToClient`: set the contact's
pipeline row to `(client, kickoff)`, creating it if absent. -/
def convertProspectToClient (db : DB) (contactId : String) : DB :=
  { db with
    pipelines :=
      pipelineUpsert db.pipelines contactId
        (fun r => { r with pipeline := some "client", stage := some "kickoff" })
        { contactId := contactId, pipeline := some "client",
          stage := some "kickoff" } }

/-- `checkPipelineTriggers(contactId, newPipeline, newStage)`:
the single static trigger rule
`(prospect, contract-signed) → convertProspectToClient`.
Returns `some` of the updated store when the rule fires (the service returns
a conversion object), `none` otherwise (the service returns `null`). -/
def checkPipelineTriggers (db : DB) (contactId : String)
    (newPipeline newStage : JsVal) : Option DB :=
  if newPipeline = .str "prospect" ∧ newStage = .str "contract-signed" then
    some (convertProspectToClient db contactId)
  else
    none

/-- `applyPipelineTriggers(contactId, pipeline, stage)`: run
`checkPipelineTriggers`; `some` updated store when a conversion happened,
`none` when the caller should proceed with its normal update. -/
def applyPipelineTriggers (db : DB) (contactId : String)
    (pipeline stage : JsVal) : Option DB :=
  checkPipelineTriggers db contactId pipeline stage

/-! ## `src/routes/Contact/ContactRoutes.js` -/

/-- The error responses of the contact routes. -/
inductive ApiError where
  | badRequest : ApiError
  | companyHQNotFound : ApiError
  | contactNotFound : ApiError
deriving DecidableEq

/-- The string carried by a truthy `JsVal` (only used under a truthiness
guard, where the value is necessarily a non-empty string). -/
def JsVal.asString : JsVal → String
  | .str s => s
  | _ => ""

/-- JavaScript `v || "default"` on a request value
(the idiom `pipeline: pipeline || 'prospect'` in the create branches). -/
def jsValOrDefault (v : JsVal) (d : String) : String :=
  match v with
  | .str s => if s = "" then d else s
  | _ => d

/-- The company-match predicate of the find-or-create company lookup
(lines 200-202 and 434-436):
`c.companyName && c.companyName.trim().toLowerCase() ===
normalizedCompanyName.toLowerCase()`, where `normalizedCompanyName` is the
already-trimmed input name. -/
def companyNameMatches (c : Company) (normalizedName : String) : Bool :=
  match c.companyName with
  | some n => n ≠ "" && jsLower (jsTrim n) = jsLower normalizedName
  | none => false

/-- `prisma.company.findMany({ where: { companyHQId } })` followed by the
in-memory `find` over the normalized name. -/
def findCompanyByName (db : DB) (crmId normalizedName : String) :
    Option Company :=
  (db.companies.filter (fun c => c.companyHQId = crmId)).find?
    (fun c => companyNameMatches c normalizedName)

/-- The company row created by `prisma.company.create` in
`POST /api/contacts` (lines 212-217): only the tenant and the trimmed name
are stored. -/
def freshCompany (db : DB) (crmId normalizedName : String) : Company :=
  { id := "company" ++ toString db.nextId,
    companyHQId := crmId,
    companyName := some normalizedName,
    address := none, industry := none, website := none,
    revenue := none, yearsInBusiness := none }

/-- The find-or-create company block of `POST /api/contacts`
(lines 186-224): trim the incoming name, look it up case-insensitively among
the tenant's companies, create a company storing the trimmed name when no
match exists.  Returns the resolved company id and the updated store.
(The `universal-create` variant, lines 411-473, differs only in the extra
enrichment fields it stores on creation and in backfilling a missing
website; its lookup and creation key are identical.) -/
def resolveCompanyPost (db : DB) (crmId name : String) : String × DB :=
  let normalizedCompanyName := jsTrim name
  match findCompanyByName db crmId normalizedCompanyName with
  | some c => (c.id, db)
  | none =>
      let newCompany := freshCompany db crmId normalizedCompanyName
      (newCompany.id,
       { db with companies := db.companies ++ [newCompany],
                 nextId := db.nextId + 1 })

/-- The request body of `POST /api/contacts` (lines 149-164). -/
structure PostBody where
  crmId : String
  firstName : JsVal
  lastName : JsVal
  goesBy : JsVal
  email : JsVal
  phone : JsVal
  title : JsVal
  contactCompanyId : JsVal
  contactCompanyName : JsVal
  pipeline : JsVal
  stage : JsVal
  buyerDecision : JsVal
  howMet : JsVal
  notes : JsVal
deriving DecidableEq

/-- A `PostBody` with every optional field absent. -/
def PostBody.empty (crmId : String) : PostBody :=
  { crmId := crmId, firstName := .undef, lastName := .undef, goesBy := .undef,
    email := .undef, phone := .undef, title := .undef,
    contactCompanyId := .undef, contactCompanyName := .undef,
    pipeline := .undef, stage := .undef, buyerDecision := .undef,
    howMet := .undef, notes := .undef }

/-- The result of a contact route: the updated store, the response contact,
and whether the response carried `converted: true`. -/
structure RouteResult where
  db : DB
  contact : Contact
  converted : Bool
deriving DecidableEq

/-- The `prisma.contact.create` calls of `POST /api/contacts`
(lines 291-318 with a truthy email, lines 324-351 without): every optional
field is stored as `field || null`, the email as
`email ? email.toLowerCase().trim() : null`, and a pipeline row is created
exactly when `pipeline` is truthy, holding `(pipeline, stage || null)`. -/
def postCreateContact (db : DB) (b : PostBody) (finalCCId : JsVal) :
    RouteResult :=
  let newC : Contact :=
    { id := "contact" ++ toString db.nextId,
      crmId := b.crmId,
      firstName := jsOrNull b.firstName,
      lastName := jsOrNull b.lastName,
      goesBy := jsOrNull b.goesBy,
      email := if b.email.truthy then some (normEmail b.email.asString)
               else none,
      phone := jsOrNull b.phone,
      title := jsOrNull b.title,
      contactCompanyId := jsOrNull finalCCId,
      buyerDecision := jsOrNull b.buyerDecision,
      howMet := jsOrNull b.howMet,
      notes := jsOrNull b.notes }
  let db1 := { db with contacts := db.contacts ++ [newC],
                       nextId := db.nextId + 1 }
  let db2 :=
    if b.pipeline.truthy then
      { db1 with pipelines := db1.pipelines ++
          [{ contactId := newC.id, pipeline := b.pipeline.toStored,
             stage := jsOrNull b.stage }] }
    else db1
  { db := db2, contact := newC, converted := false }

/-- `POST /api/contacts` (lines 147-369).  Validates the tenant, resolves
the company when `contactCompanyName` is given without `contactCompanyId`,
then: with a truthy email, looks up an existing contact by
`{ crmId, email }` — the RAW body email, not normalized — and either merges
into it (fields via `||`, pipeline upserted without trigger evaluation) or
creates a new contact storing the normalized email; without an email it
always creates. -/
def createContactPost (db : DB) (b : PostBody) :
    Except ApiError RouteResult :=
  if b.crmId = "" then .error .badRequest
  else if ¬ db.companyHQs.contains b.crmId then .error .companyHQNotFound
  else
    let resolved :=
      if b.contactCompanyName.truthy ∧ ¬ b.contactCompanyId.truthy then
        let r := resolveCompanyPost db b.crmId b.contactCompanyName.asString
        (JsVal.str r.1, r.2)
      else (b.contactCompanyId, db)
    let finalCCId := resolved.1
    let db0 := resolved.2
    if b.email.truthy then
      match db0.contacts.find?
          (fun c => c.crmId = b.crmId ∧ c.email = some b.email.asString) with
      | some ex =>
          let updated : Contact :=
            { ex with
              firstName := jsOrStored b.firstName ex.firstName,
              lastName := jsOrStored b.lastName ex.lastName,
              goesBy := jsOrStored b.goesBy ex.goesBy,
              phone := jsOrStored b.phone ex.phone,
              title := jsOrStored b.title ex.title,
              contactCompanyId := jsOrStored finalCCId ex.contactCompanyId,
              buyerDecision := jsOrStored b.buyerDecision ex.buyerDecision,
              howMet := jsOrStored b.howMet ex.howMet,
              notes := jsOrStored b.notes ex.notes }
          let db1 := { db0 with contacts := (db0.contacts.map
              (fun c => if c.id = ex.id then updated else c)) }
          let db2 :=
            if b.pipeline.truthy then
              { db1 with pipelines := (pipelineUpsert db1.pipelines ex.id
                  (fun r => { r with pipeline := b.pipeline.toStored,
                                     stage := jsOrNull b.stage })
                  { contactId := ex.id, pipeline := b.pipeline.toStored,
                    stage := jsOrNull b.stage }) }
            else db1
          .ok { db := db2, contact := updated, converted := false }
      | none => .ok (postCreateContact db0 b finalCCId)
    else
      .ok (postCreateContact db0 b finalCCId)

/-- The request body of `PUT /api/contacts/:contactId` (lines 648-661).
Every field is optional and `undefined`-sensitive. -/
structure PutBody where
  firstName : JsVal
  lastName : JsVal
  goesBy : JsVal
  email : JsVal
  phone : JsVal
  title : JsVal
  contactCompanyId : JsVal
  buyerDecision : JsVal
  howMet : JsVal
  notes : JsVal
  pipeline : JsVal
  stage : JsVal
deriving DecidableEq

/-- A `PutBody` with every field absent. -/
def PutBody.empty : PutBody :=
  { firstName := .undef, lastName := .undef, goesBy := .undef,
    email := .undef, phone := .undef, title := .undef,
    contactCompanyId := .undef, buyerDecision := .undef, howMet := .undef,
    notes := .undef, pipeline := .undef, stage := .undef }

/-- The `updateData` merge of the PUT route (lines 676-686): a field is
written exactly when it is not `undefined` (so `null` and `""` overwrite);
an absent field keeps the stored value. -/
def mergeUndef (v : JsVal) (existing : Option String) : Option String :=
  if v = .undef then existing else v.toStored

/-- The merged pipeline of the PUT route (line 705):
`pipeline !== undefined ? pipeline : (currentPipeline?.pipeline ||
'prospect')`. -/
def putNewPipeline (current : Option PipelineRow) (b : PutBody) : JsVal :=
  if b.pipeline ≠ .undef then b.pipeline
  else
    .str (match current with
          | some r => storedOrDefault r.pipeline "prospect"
          | none => "prospect")

/-- The merged stage of the PUT route (line 706):
`stage !== undefined ? stage : (currentPipeline?.stage || null)`. -/
def putNewStage (current : Option PipelineRow) (b : PutBody) : JsVal :=
  if b.stage ≠ .undef then b.stage
  else
    match current with
    | some r => storedOrNullVal r.stage
    | none => .null

/-- The `pipelineUpdate` object of the PUT route (lines 721-723): only the
supplied halves of the pair are written onto the existing row. -/
def putUpdateRow (b : PutBody) (r : PipelineRow) : PipelineRow :=
  let r1 :=
    if b.pipeline ≠ .undef then { r with pipeline := b.pipeline.toStored }
    else r
  if b.stage ≠ .undef then { r1 with stage := b.stage.toStored } else r1

/-- The `create` object of the PUT route's pipeline upsert (lines 729-733):
`{ contactId, pipeline: pipeline || 'prospect', stage: stage || null }`. -/
def putCreatedRow (contactId : String) (b : PutBody) : PipelineRow :=
  { contactId := contactId,
    pipeline := some (jsValOrDefault b.pipeline "prospect"),
    stage := jsOrNull b.stage }

/-- The `updateData` merge applied to the whole contact (lines 676-691). -/
def putMergedContact (b : PutBody) (ex : Contact) : Contact :=
  { ex with
    firstName := mergeUndef b.firstName ex.firstName,
    lastName := mergeUndef b.lastName ex.lastName,
    goesBy := mergeUndef b.goesBy ex.goesBy,
    email := mergeUndef b.email ex.email,
    phone := mergeUndef b.phone ex.phone,
    title := mergeUndef b.title ex.title,
    contactCompanyId := mergeUndef b.contactCompanyId ex.contactCompanyId,
    buyerDecision := mergeUndef b.buyerDecision ex.buyerDecision,
    howMet := mergeUndef b.howMet ex.howMet,
    notes := mergeUndef b.notes ex.notes }

/-- The store after `prisma.contact.update` of the PUT route
(lines 689-696). -/
def putDb1 (db : DB) (contactId : String) (b : PutBody) (ex : Contact) :
    DB :=
  { db with contacts := (db.contacts.map
      (fun c => if c.id = contactId then putMergedContact b ex else c)) }

/-- The pipeline branch of the PUT route (lines 699-734): read the current
pipeline row, run `applyPipelineTriggers` on the merged pair, and when no
trigger fired upsert the caller's supplied fields.  Returns the updated
store and the `converted` flag of the response. -/
def putPipelineWrite (db1 : DB) (contactId : String) (b : PutBody) :
    DB × Bool :=
  let currentPipeline :=
    db1.pipelines.find? (fun r => r.contactId = contactId)
  match applyPipelineTriggers db1 contactId
      (putNewPipeline currentPipeline b)
      (putNewStage currentPipeline b) with
  | some db2 => (db2, true)
  | none =>
      ({ db1 with pipelines := (pipelineUpsert db1.pipelines contactId
          (putUpdateRow b) (putCreatedRow contactId b)) }, false)

/-- `PUT /api/contacts/:contactId` (lines 645-766).  Looks the contact up by
id only (no tenant filter), merges `undefined`-sensitive fields, and — when
`pipeline` or `stage` is supplied — reads the current pipeline row, fills
the missing half of the pair from it (`currentPipeline?.pipeline ||
'prospect'`, `currentPipeline?.stage || null`), runs
`applyPipelineTriggers` on the merged pair, and only when no trigger fired
upserts the caller's supplied fields. -/
def putContact (db : DB) (contactId : String) (b : PutBody) :
    Except ApiError RouteResult :=
  match db.contacts.find? (fun c => c.id = contactId) with
  | none => .error .contactNotFound
  | some ex =>
      let updated := putMergedContact b ex
      let db1 := putDb1 db contactId b ex
      if b.pipeline ≠ .undef ∨ b.stage ≠ .undef then
        let w := putPipelineWrite db1 contactId b
        .ok { db := w.1, contact := updated, converted := w.2 }
      else
        .ok { db := db1, contact := updated, converted := false }

/-- The relational `where.pipeline` filter built by `GET /api/contacts`
(lines 34-52): when a `pipeline` or `stage` query parameter is present the
contact must have a pipeline row matching the given values. -/
def contactMatchesFilters (db : DB) (c : Contact)
    (pipelineF stageF : Option String) : Bool :=
  match pipelineF, stageF with
  | none, none => true
  | _, _ =>
      match db.pipelines.find? (fun r => r.contactId = c.id) with
      | none => false
      | some r =>
          (match pipelineF with
           | some p => r.pipeline = some p
           | none => true) &&
          (match stageF with
           | some s => r.stage = some s
           | none => true)

/-- `GET /api/contacts?companyHQId=...` (lines 22-79): requires
`companyHQId` and returns the contacts whose `crmId` equals it, optionally
filtered by pipeline and stage.  (The response ordering is abstracted;
only membership matters here.) -/
def listContacts (db : DB) (companyHQId : String)
    (pipelineF stageF : Option String) : Except ApiError (List Contact) :=
  if companyHQId = "" then .error .badRequest
  else
    .ok ((db.contacts.filter (fun c => c.crmId = companyHQId)).filter
      (fun c => contactMatchesFilters db c pipelineF stageF))

/-- `GET /api/contacts/:contactId` (lines 89-121):
`prisma.contact.findUnique({ where: { id: contactId } })` — the lookup is
by contact id only; the route has no tenant parameter and applies no tenant
filter. -/
def getContactById (db : DB) (contactId : String) : Option Contact :=
  db.contacts.find? (fun c => c.id = contactId)

/-- `DELETE /api/contacts/:contactId` (lines 864-900): find by id only
(no tenant filter), delete the contact, cascading to its pipeline row. -/
def deleteContact (db : DB) (contactId : String) : Except ApiError DB :=
  match db.contacts.find? (fun c => c.id = contactId) with
  | none => .error .contactNotFound
  | some _ =>
      .ok { db with
        contacts := db.contacts.filter (fun c => ¬ c.id = contactId),
        pipelines := db.pipelines.filter (fun r => ¬ r.contactId = contactId) }

/-! ## Interleaving model of the find-or-create race

`POST /api/contacts/universal-create` performs its existence check and its
insert as two separate store calls (`prisma.contact.findMany` at lines
490-495, `prisma.contact.create` at lines 554-581) with no uniqueness
constraint on `(crmId, email)` in the schema.  Two concurrent requests are
modelled as state machines whose atomic steps (one store call each) are
interleaved by a schedule. -/

/-- The universal-create existence check (lines 485-500): filter the
tenant's contacts with non-null email, then find one whose
`email.toLowerCase().trim()` equals the normalized incoming email. -/
def uniFindContact (db : DB) (crmId email : String) : Option Contact :=
  let normalizedEmail := normEmail email
  (db.contacts.filter (fun c => c.crmId = crmId ∧ c.email ≠ none)).find?
    (fun c =>
      match c.email with
      | some e => e ≠ "" && normEmail e = normalizedEmail
      | none => false)

/-- The universal-create insert (lines 554-581) for a request carrying only
`crmId` and `email`: every other field is stored as `null` and the email is
stored normalized. -/
def uniCreateContact (db : DB) (crmId email : String) : DB :=
  let newC : Contact :=
    { id := "contact" ++ toString db.nextId,
      crmId := crmId,
      firstName := none, lastName := none, goesBy := none,
      email := some (normEmail email),
      phone := none, title := none, contactCompanyId := none,
      buyerDecision := none, howMet := none, notes := none }
  { db with contacts := db.contacts ++ [newC], nextId := db.nextId + 1 }

/-- The phase of an in-flight universal-create request: not yet at the
store, holding the result of its existence check, or finished. -/
inductive ReqPhase where
  | start : ReqPhase
  | looked : Option Contact → ReqPhase
  | finished : ReqPhase
deriving DecidableEq

/-- An in-flight universal-create request (tenant, email, phase). -/
structure RaceReq where
  crmId : String
  email : String
  phase : ReqPhase
deriving DecidableEq

/-- One atomic store call of an in-flight request: the existence check,
then — when it found nothing — the insert (when it found an existing
contact the request takes the merge path, which writes no new row and, for
a request carrying only the email, changes no stored field). -/
def raceStep (db : DB) (r : RaceReq) : DB × RaceReq :=
  match r.phase with
  | .start =>
      (db, { r with phase := .looked (uniFindContact db r.crmId r.email) })
  | .looked none =>
      (uniCreateContact db r.crmId r.email, { r with phase := .finished })
  | .looked (some _) => (db, { r with phase := .finished })
  | .finished => (db, r)

/-- Run two in-flight requests under a schedule (`true` steps the first
request, `false` the second). -/
def runSchedule (db : DB) (a b : RaceReq) :
    List Bool → DB × RaceReq × RaceReq
  | [] => (db, a, b)
  | true :: rest =>
      let s := raceStep db a
      runSchedule s.1 s.2 b rest
  | false :: rest =>
      let s := raceStep db b
      runSchedule s.1 a s.2 rest

/-- The number of contact rows of tenant `t` holding the normalized form of
email `e` — the quantity the uniqueness invariant says is at most one. -/
def contactCountByEmail (db : DB) (t e : String) : Nat :=
  (db.contacts.filter
    (fun c => c.crmId = t ∧ c.email = some (normEmail e))).length

/-! ## Observation helpers and invariants -/

/-- The pipeline row referencing a contact (the `Pipeline` model is keyed by
its `@unique contactId`). -/
def pipelineRowOf (db : DB) (contactId : String) : Option PipelineRow :=
  db.pipelines.find? (fun r => r.contactId = contactId)

/-- The deduplication key of a company row: its trimmed, lowercased name,
or `none` when the name is absent or empty (such rows are skipped by the
company lookup's truthiness check). -/
def companyKey (c : Company) : Option String :=
  match c.companyName with
  | some n => if n = "" then none else some (jsLower (jsTrim n))
  | none => none

/-- The company uniqueness invariant of the spec: within one tenant, no two
company rows share a case-insensitive-trimmed name (rows without a usable
name carry no key and are exempt, as the lookup skips them). -/
def companiesUnique (db : DB) : Prop :=
  db.companies.Pairwise (fun c d =>
    c.companyHQId = d.companyHQId →
      ∀ k, companyKey c = some k → companyKey d ≠ some k)

/-! ## Concrete scenario data used by counterexamples and witnesses -/

/-- A store holding the single tenant `"T"` and nothing else. -/
def exDb : DB :=
  { companyHQs := ["T"], companies := [], contacts := [], pipelines := [],
    nextId := 0 }

/-- A contact of tenant `"T"` with a stored (normalized) email and a first
name. -/
def exContact : Contact :=
  { id := "c1", crmId := "T", firstName := some "Bob", lastName := none,
    goesBy := none, email := some "j@x.com", phone := none, title := none,
    contactCompanyId := none, buyerDecision := none, howMet := none,
    notes := none }

/-- A store holding tenant `"T"` and the contact `exContact`, with no
pipeline row. -/
def exDbC : DB :=
  { companyHQs := ["T"], companies := [], contacts := [exContact],
    pipelines := [], nextId := 1 }

/-- `exDbC` with the contact already in the client pipeline. -/
def exDbClient : DB :=
  { exDbC with pipelines :=
      [{ contactId := "c1", pipeline := some "client",
         stage := some "sustainment" }] }

/-- A contact belonging to tenant `"T1"`. -/
def exContactT1 : Contact :=
  { id := "c1", crmId := "T1", firstName := none, lastName := none,
    goesBy := none, email := some "j@x.com", phone := none, title := none,
    contactCompanyId := none, buyerDecision := none, howMet := none,
    notes := none }

/-- A store holding two tenants, where the only contact belongs to `"T1"`. -/
def exDbT12 : DB :=
  { companyHQs := ["T1", "T2"], companies := [], contacts := [exContactT1],
    pipelines := [], nextId := 1 }

/-- A `POST /api/contacts` body for tenant `"T"` carrying only the
mixed-case email `"J@X.com"`. -/
def bodyMixedCase : PostBody :=
  { PostBody.empty "T" with email := .str "J@X.com" }

/-- A `POST /api/contacts` body carrying the already-normalized email
`"j@x.com"`. -/
def bodyLowerCase : PostBody :=
  { PostBody.empty "T" with email := .str "j@x.com" }

/-- A `POST /api/contacts` body carrying the mixed-case email together with
a first name. -/
def bodyMixedCaseNamed : PostBody :=
  { PostBody.empty "T" with email := .str "J@X.com",
                            firstName := .str "New" }

/-- A `POST /api/contacts` body proposing the pipeline pair
`(prospect, interest)`. -/
def bodyProspectInterest : PostBody :=
  { PostBody.empty "T" with email := .str "a@b.com",
                            pipeline := .str "prospect",
                            stage := .str "interest" }

/-- A `POST /api/contacts` body proposing the trigger pair
`(prospect, contract-signed)`. -/
def bodyProspectSigned : PostBody :=
  { PostBody.empty "T" with email := .str "a@b.com",
                            pipeline := .str "prospect",
                            stage := .str "contract-signed" }

/-- A `POST /api/contacts` body supplying the empty string for the first
name of the already-stored contact `exContact`. -/
def bodyEmptyFirstName : PostBody :=
  { PostBody.empty "T" with email := .str "j@x.com", firstName := .str "" }

/-- A PUT body supplying exactly a pipeline and a stage string. -/
def putBodyBoth (p s : String) : PutBody :=
  { PutBody.empty with pipeline := .str p, stage := .str s }

/-- A PUT body supplying only a stage string. -/
def putBodyStage (s : String) : PutBody :=
  { PutBody.empty with stage := .str s }

/-- The result of a concrete non-trigger PUT, used to witness the amended
C4 theorem. -/
def exPutClientRenewal : RouteResult :=
  ((putContact exDbC "c1" (putBodyBoth "client" "renewal")).toOption).getD
    ⟨exDbC, exContact, false⟩

/-- A `POST /api/contacts` body supplying a null first name and a truthy
phone for the stored contact `exContact`. -/
def bodyNullFirst : PostBody :=
  { PostBody.empty "T" with email := .str "j@x.com", firstName := .null,
                            phone := .str "555" }

end IgniteBD

namespace IgniteBD

/-- `dropWhile` is idempotent. -/
theorem dropWhile_idem {α : Type} (p : α → Bool) (l : List α) :
    (l.dropWhile p).dropWhile p = l.dropWhile p := by
  induction l with
  | nil => rfl
  | cons a t ih =>
    by_cases h : p a
    · simp [List.dropWhile_cons, h, ih]
    · simp [List.dropWhile_cons, h]

/-- The head of a `dropWhile` result does not satisfy the predicate. -/
theorem dropWhile_head_not {α : Type} (p : α → Bool) (l : List α) {a : α}
    {t : List α} (h : l.dropWhile p = a :: t) : p a = false := by
  induction l with
  | nil => simp [List.dropWhile] at h
  | cons b m ih =>
    by_cases hb : p b
    · rw [List.dropWhile_cons_of_pos hb] at h; exact ih h
    · rw [List.dropWhile_cons_of_neg hb] at h
      cases h
      simpa using hb

/-- The JavaScript `trim` model is idempotent. -/
theorem jsTrim_idem (s : String) : jsTrim (jsTrim s) = jsTrim s := by
  have key : ∀ l : List Char,
      let m := l.dropWhile Char.isWhitespace
      let t := (m.reverse.dropWhile Char.isWhitespace).reverse
      ((t.dropWhile Char.isWhitespace).reverse.dropWhile
        Char.isWhitespace).reverse = t := by
    intro l m t
    have h1 : t.dropWhile Char.isWhitespace = t := by
      cases hc : t with
      | nil => simp
      | cons a u =>
        have hsuf : m.reverse.dropWhile Char.isWhitespace <:+ m.reverse :=
          List.dropWhile_suffix _
        have hpre : t <+: m := by
          have := List.reverse_prefix.mpr hsuf
          simpa [t] using this
        obtain ⟨u2, hu2⟩ := hpre
        have hm2 : m = a :: (u ++ u2) := by
          rw [← hu2, hc]; simp
        have hpa : Char.isWhitespace a = false := by
          have hdw : l.dropWhile Char.isWhitespace = a :: (u ++ u2) := by
            rw [← hm2]
          exact dropWhile_head_not _ l hdw
        exact List.dropWhile_cons_of_neg (by simp [hpa])
    rw [h1]
    have h2 : t.reverse.dropWhile Char.isWhitespace = t.reverse := by
      have : t.reverse = m.reverse.dropWhile Char.isWhitespace := by
        simp [t]
      rw [this]
      exact dropWhile_idem _ _
    rw [h2]
    simp [t]
  exact congrArg String.mk (key s.data)

end IgniteBD

namespace IgniteBD

/-- Updating the rows matching a key preserves which row `find?` returns
(the updated image of the first match), provided the update preserves the
key. -/
theorem find?_map_update (ps : List PipelineRow) (cid : String)
    (upd : PipelineRow → PipelineRow)
    (hupd : ∀ r, (upd r).contactId = r.contactId)
    {r0 : PipelineRow}
    (hfind : ps.find? (fun r => r.contactId = cid) = some r0) :
    (ps.map (fun r => if r.contactId = cid then upd r else r)).find?
      (fun r => r.contactId = cid) = some (upd r0) := by
  induction ps with
  | nil => simp at hfind
  | cons a t ih =>
    by_cases ha : a.contactId = cid
    · rw [List.find?_cons_of_pos _ (by simpa using ha)] at hfind
      cases hfind
      simp only [List.map_cons, if_pos ha]
      rw [List.find?_cons_of_pos _ (by simp [hupd, ha])]
    · rw [List.find?_cons_of_neg _ (by simpa using ha)] at hfind
      simp only [List.map_cons, if_neg ha]
      rw [List.find?_cons_of_neg _ (by simpa using ha)]
      exact ih hfind

/-- Appending a matching row to a list with no match makes it the `find?`
result. -/
theorem find?_append_singleton {α : Type} (l : List α) (p : α → Bool) (x : α)
    (hl : l.find? p = none) (hx : p x = true) :
    (l ++ [x]).find? p = some x := by
  rw [List.find?_append, hl]
  simp [List.find?_cons, hx]

/-- `pipelineUpsert` when a row for the contact exists: the stored row
becomes the updated image of the previously found row. -/
theorem pipelineUpsert_find_of_found (ps : List PipelineRow) (cid : String)
    (upd : PipelineRow → PipelineRow) (created : PipelineRow)
    (hupd : ∀ r, (upd r).contactId = r.contactId)
    {r0 : PipelineRow}
    (hfind : ps.find? (fun r => r.contactId = cid) = some r0) :
    (pipelineUpsert ps cid upd created).find? (fun r => r.contactId = cid) =
      some (upd r0) := by
  unfold pipelineUpsert
  have hany : ps.any (fun r => r.contactId = cid) = true := by
    rw [List.any_eq_true]
    have hp := List.find?_some hfind
    exact ⟨r0, List.mem_of_find?_eq_some hfind, hp⟩
  rw [if_pos (by simpa using hany)]
  exact find?_map_update ps cid upd hupd hfind

/-- `pipelineUpsert` when no row for the contact exists: the created row is
stored and found. -/
theorem pipelineUpsert_find_of_none (ps : List PipelineRow) (cid : String)
    (upd : PipelineRow → PipelineRow) (created : PipelineRow)
    (hcre : created.contactId = cid)
    (hfind : ps.find? (fun r => r.contactId = cid) = none) :
    (pipelineUpsert ps cid upd created).find? (fun r => r.contactId = cid) =
      some created := by
  unfold pipelineUpsert
  have hany : ps.any (fun r => r.contactId = cid) = false := by
    rw [List.any_eq_false]
    intro x hx
    have := List.find?_eq_none.mp hfind x hx
    simpa using this
  rw [if_neg (by simp [hany])]
  exact find?_append_singleton ps _ created hfind (by simpa using hcre)

end IgniteBD

namespace IgniteBD

/-- C1: the uniqueness claim fails on the code.  Two identical
`POST /api/contacts` calls for tenant `"T"` carrying the email `"J@X.com"`
leave TWO contact rows sharing `(T, "j@x.com")`: the existence lookup
compares the raw body email while the store holds normalized emails, so the
second call never finds the row the first call created. -/
theorem C1_post_raw_email_lookup_creates_duplicates :
    ((createContactPost exDb bodyMixedCase).toOption.bind (fun r1 =>
      (createContactPost r1.db bodyMixedCase).toOption.map (fun r2 =>
        contactCountByEmail r2.db "T" "j@x.com"))) = some 2 := by
  decide

/-- C3: normalization before comparison fails on the code.  With a stored
contact at `(T, "j@x.com")`, a `POST /api/contacts` write carrying
`"J@X.com"` (case variant) and a first name creates a SECOND row instead of
matching and updating the stored one, whose fields stay untouched. -/
theorem C3_case_variant_email_not_matched :
    ((createContactPost exDb bodyLowerCase).toOption.bind (fun r1 =>
      (createContactPost r1.db bodyMixedCaseNamed).toOption.map (fun r2 =>
        (r2.db.contacts.length,
         r2.db.contacts.map (fun c => c.firstName))))) =
      some (2, [none, some "New"]) := by
  decide

/-- C4 counterexample: `POST /api/contacts` writes pipeline state for an
already-tracked contact WITHOUT trigger evaluation.  The second call
proposes the trigger pair `(prospect, contract-signed)` for the existing
contact and that exact pair is persisted — while `checkPipelineTriggers`
would have fired on it (and written `(client, kickoff)`). -/
theorem C4_post_pipeline_write_bypasses_triggers :
    ((createContactPost exDb bodyProspectInterest).toOption.bind (fun r1 =>
      (createContactPost r1.db bodyProspectSigned).toOption.map (fun r2 =>
        pipelineRowOf r2.db r1.contact.id))) =
      some (some ⟨"contact0", some "prospect", some "contract-signed"⟩) ∧
    (checkPipelineTriggers exDb "contact0" (.str "prospect")
      (.str "contract-signed")).isSome = true := by
  constructor
  · decide
  · decide

/-- C5 counterexample: in the email-matched merge of `POST /api/contacts`,
explicitly supplying the empty string for `firstName` does NOT overwrite
the stored value (the merge uses JavaScript `||`, so falsy supplied values
are ignored), contradicting the claim that any non-undefined supplied value
overwrites. -/
theorem C5_post_merge_ignores_empty_string :
    ((createContactPost exDbC bodyEmptyFirstName).toOption.map (fun r =>
      r.contact.firstName)) = some (some "Bob") := by
  decide

/-- C6 counterexample: the by-id read and the delete are not filtered by
tenant.  In a store with tenants `"T1"` and `"T2"`, the contact of `"T1"`
is returned by `GET /api/contacts/:contactId` and deleted by
`DELETE /api/contacts/:contactId` — neither operation takes or checks any
tenant, so a caller acting for `"T2"` reads and writes `"T1"`'s row. -/
theorem C6_id_read_and_delete_not_tenant_filtered :
    getContactById exDbT12 "c1" = some exContactT1 ∧
    exContactT1.crmId = "T1" ∧
    (deleteContact exDbT12 "c1").toOption =
      some { exDbT12 with contacts := [] } := by
  refine ⟨by decide, by decide, by decide⟩

/-- C8 counterexample: a `PUT /api/contacts/:contactId` proposing
`(prospect, kickoff)` — where `"kickoff"` is not in the prospect stage
list — succeeds and persists the invalid pair unchanged; no
`InvalidStageForPipeline` error exists on the write path. -/
theorem C8_invalid_stage_silently_persisted :
    isValidStageForPipeline "kickoff" "prospect" = false ∧
    ((putContact exDbC "c1"
        { PutBody.empty with pipeline := .str "prospect",
                             stage := .str "kickoff" }).toOption.map
      (fun r => (r.converted, pipelineRowOf r.db "c1"))) =
      some (false, some ⟨"c1", some "prospect", some "kickoff"⟩) := by
  refine ⟨by decide, by decide⟩

/-- C9 counterexample: the find-or-create of universal-create is not atomic.
Interleaving two requests for the same new email `(T, "j@x.com")` as
lookup-A, lookup-B, insert-A, insert-B leaves two contact rows sharing the
tenant and normalized email, with no error raised (the schema has no
uniqueness constraint on `(crmId, email)`). -/
theorem C9_interleaved_find_or_create_duplicates :
    contactCountByEmail
      (runSchedule exDb ⟨"T", "j@x.com", .start⟩ ⟨"T", "j@x.com", .start⟩
        [true, false, true, false]).1 "T" "j@x.com" = 2 := by
  decide

end IgniteBD


namespace IgniteBD

/-- Upserting a row whose update image and create row are the same constant
values stores exactly that row for the contact. -/
theorem pipelineUpsert_const_rowOf (ps : List PipelineRow) (cid : String)
    (pv sv : Option String) :
    (pipelineUpsert ps cid
      (fun r => { r with pipeline := pv, stage := sv })
      ⟨cid, pv, sv⟩).find? (fun r => r.contactId = cid) =
      some ⟨cid, pv, sv⟩ := by
  rcases hfind : ps.find? (fun r => r.contactId = cid) with _ | r0
  · exact pipelineUpsert_find_of_none ps cid _ _ rfl hfind
  · have h := pipelineUpsert_find_of_found ps cid
      (fun r => { r with pipeline := pv, stage := sv }) ⟨cid, pv, sv⟩
      (fun r => rfl) hfind
    have hcid : r0.contactId = cid := by
      have := List.find?_some hfind
      simpa using this
    rw [h]
    simp [hcid]

/-- `putContact` on an existing contact with a pipeline write requested is
the composition of the field merge and the pipeline branch. -/
theorem putContact_eq_ok (db : DB) (cid : String) (b : PutBody)
    {ex : Contact}
    (hex : db.contacts.find? (fun c => c.id = cid) = some ex)
    (hif : b.pipeline ≠ .undef ∨ b.stage ≠ .undef) :
    putContact db cid b =
      .ok { db := (putPipelineWrite (putDb1 db cid b ex) cid b).1,
            contact := putMergedContact b ex,
            converted := (putPipelineWrite (putDb1 db cid b ex) cid b).2 } := by
  simp only [putContact, hex]
  rw [if_pos hif]

/-- The pipeline branch when the merged pair is the trigger pair: the store
is converted and the response is flagged `converted`. -/
theorem putPipelineWrite_trigger (db1 : DB) (cid : String) (b : PutBody)
    (htrig :
      putNewPipeline (db1.pipelines.find? (fun r => r.contactId = cid)) b =
        .str "prospect" ∧
      putNewStage (db1.pipelines.find? (fun r => r.contactId = cid)) b =
        .str "contract-signed") :
    putPipelineWrite db1 cid b = (convertProspectToClient db1 cid, true) := by
  unfold putPipelineWrite applyPipelineTriggers checkPipelineTriggers
  dsimp only []
  rw [if_pos htrig]

/-- The pipeline branch when the merged pair matches no trigger rule: the
caller's fields are upserted and the response is not flagged. -/
theorem putPipelineWrite_nontrigger (db1 : DB) (cid : String) (b : PutBody)
    (hnt : ¬(
      putNewPipeline (db1.pipelines.find? (fun r => r.contactId = cid)) b =
        .str "prospect" ∧
      putNewStage (db1.pipelines.find? (fun r => r.contactId = cid)) b =
        .str "contract-signed")) :
    putPipelineWrite db1 cid b =
      ({ db1 with pipelines := (pipelineUpsert db1.pipelines cid
          (putUpdateRow b) (putCreatedRow cid b)) }, false) := by
  unfold putPipelineWrite applyPipelineTriggers checkPipelineTriggers
  dsimp only []
  rw [if_neg hnt]

/-- The field merge leaves the pipeline store untouched. -/
theorem putDb1_pipelines (db : DB) (cid : String) (b : PutBody)
    (ex : Contact) : (putDb1 db cid b ex).pipelines = db.pipelines := rfl

end IgniteBD

namespace IgniteBD

/-- The PUT route with the literal trigger pair supplied: the trigger fires
and the stored row becomes `(client, kickoff)` whatever it was before. -/
theorem putContact_trigger_pair (db : DB) (cid : String) {ex : Contact}
    (hex : db.contacts.find? (fun c => c.id = cid) = some ex) :
    ∃ res, putContact db cid (putBodyBoth "prospect" "contract-signed") =
        .ok res ∧
      res.converted = true ∧
      pipelineRowOf res.db cid = some ⟨cid, some "client", some "kickoff"⟩ := by
  have hok := putContact_eq_ok db cid
    (putBodyBoth "prospect" "contract-signed") hex (Or.inl (by decide))
  have htrig : putNewPipeline
      ((putDb1 db cid (putBodyBoth "prospect" "contract-signed")
        ex).pipelines.find? (fun r => r.contactId = cid))
      (putBodyBoth "prospect" "contract-signed") = .str "prospect" ∧
      putNewStage
      ((putDb1 db cid (putBodyBoth "prospect" "contract-signed")
        ex).pipelines.find? (fun r => r.contactId = cid))
      (putBodyBoth "prospect" "contract-signed") = .str "contract-signed" :=
    ⟨rfl, rfl⟩
  rw [putPipelineWrite_trigger _ _ _ htrig] at hok
  refine ⟨_, hok, rfl, ?_⟩
  unfold pipelineRowOf convertProspectToClient
  dsimp only [putDb1]
  exact pipelineUpsert_const_rowOf db.pipelines cid (some "client")
    (some "kickoff")

/-- The PUT route with both halves supplied as non-empty strings not
matching the trigger rule: the proposed pair is stored unchanged. -/
theorem putContact_nontrigger_pair (db : DB) (cid : String)
    (p s : String) {ex : Contact}
    (hex : db.contacts.find? (fun c => c.id = cid) = some ex)
    (hp : p ≠ "") (hs : s ≠ "")
    (hnt : ¬(p = "prospect" ∧ s = "contract-signed")) :
    ∃ res, putContact db cid (putBodyBoth p s) = .ok res ∧
      res.converted = false ∧
      pipelineRowOf res.db cid = some ⟨cid, some p, some s⟩ := by
  have hok := putContact_eq_ok db cid (putBodyBoth p s) hex
    (Or.inl (by simp [putBodyBoth, PutBody.empty]))
  have hnt2 : ¬(putNewPipeline
      ((putDb1 db cid (putBodyBoth p s) ex).pipelines.find?
        (fun r => r.contactId = cid)) (putBodyBoth p s) =
        .str "prospect" ∧
      putNewStage
      ((putDb1 db cid (putBodyBoth p s) ex).pipelines.find?
        (fun r => r.contactId = cid)) (putBodyBoth p s) =
        .str "contract-signed") := by
    simpa [putNewPipeline, putNewStage, putBodyBoth, PutBody.empty]
      using hnt
  rw [putPipelineWrite_nontrigger _ _ _ hnt2] at hok
  refine ⟨_, hok, rfl, ?_⟩
  have hupd : putUpdateRow (putBodyBoth p s) =
      fun r => { r with pipeline := some p, stage := some s } := by
    funext r
    simp [putUpdateRow, putBodyBoth, PutBody.empty, JsVal.toStored]
  have hcre : putCreatedRow cid (putBodyBoth p s) =
      ⟨cid, some p, some s⟩ := by
    simp [putCreatedRow, putBodyBoth, PutBody.empty, jsValOrDefault,
      jsOrNull, JsVal.truthy, JsVal.toStored, hp, hs]
  unfold pipelineRowOf
  dsimp only [putDb1]
  rw [hupd, hcre]
  exact pipelineUpsert_const_rowOf db.pipelines cid (some p) (some s)

end IgniteBD

namespace IgniteBD

/-- `putUpdateRow` never changes the row's contact reference. -/
theorem putUpdateRow_contactId (b : PutBody) (r : PipelineRow) :
    (putUpdateRow b r).contactId = r.contactId := by
  unfold putUpdateRow
  split
  · split <;> rfl
  · split <;> rfl

/-- C2: the trigger engine is keyed on the proposed pair alone.  For an
existing contact and any official pipeline and stage strings: proposing
`(prospect, contract-signed)` converts the contact to `(client, kickoff)`
with `converted = true` regardless of prior pipeline state, and any other
proposed pair is written unchanged with `converted = false`. -/
theorem C2_trigger_determinism_and_passthrough (db : DB) (cid : String)
    (p s : String) {ex : Contact}
    (hex : db.contacts.find? (fun c => c.id = cid) = some ex)
    (hp : p ∈ OFFICIAL_PIPELINES) (hs : s ∈ ALL_STAGES) :
    ∃ res, putContact db cid (putBodyBoth p s) = .ok res ∧
      (((p = "prospect" ∧ s = "contract-signed") →
        res.converted = true ∧
        pipelineRowOf res.db cid =
          some ⟨cid, some "client", some "kickoff"⟩) ∧
      (¬(p = "prospect" ∧ s = "contract-signed") →
        res.converted = false ∧
        pipelineRowOf res.db cid = some ⟨cid, some p, some s⟩)) := by
  by_cases htr : p = "prospect" ∧ s = "contract-signed"
  · obtain ⟨hp1, hs1⟩ := htr
    subst hp1
    subst hs1
    obtain ⟨res, h1, h2, h3⟩ := putContact_trigger_pair db cid hex
    exact ⟨res, h1, fun _ => ⟨h2, h3⟩, fun hcon => absurd ⟨rfl, rfl⟩ hcon⟩
  · have hpne : p ≠ "" := by
      intro h
      subst h
      exact (by decide : ¬ ("" ∈ OFFICIAL_PIPELINES)) hp
    have hsne : s ≠ "" := by
      intro h
      subst h
      exact (by decide : ¬ ("" ∈ ALL_STAGES)) hs
    obtain ⟨res, h1, h2, h3⟩ :=
      putContact_nontrigger_pair db cid p s hex hpne hsne htr
    exact ⟨res, h1, fun hcon => absurd hcon htr, fun _ => ⟨h2, h3⟩⟩

end IgniteBD

namespace IgniteBD

/-- C10: a stage-only PUT (`pipeline` omitted) evaluates the trigger
against the stored pipeline, defaulting to `prospect` when the contact has
no pipeline row.  Supplying only `stage = "contract-signed"` therefore
converts a contact with no pipeline row, or one currently in `prospect`,
to `(client, kickoff)`, while the same update on a contact currently in
`client` fires no trigger and writes the stage as-is. -/
theorem C10_stage_only_contract_signed (db : DB) (cid : String)
    {ex : Contact}
    (hex : db.contacts.find? (fun c => c.id = cid) = some ex) :
    (pipelineRowOf db cid = none →
      ∃ res, putContact db cid (putBodyStage "contract-signed") = .ok res ∧
        res.converted = true ∧
        pipelineRowOf res.db cid =
          some ⟨cid, some "client", some "kickoff"⟩) ∧
    (∀ r, pipelineRowOf db cid = some r → r.pipeline = some "prospect" →
      ∃ res, putContact db cid (putBodyStage "contract-signed") = .ok res ∧
        res.converted = true ∧
        pipelineRowOf res.db cid =
          some ⟨cid, some "client", some "kickoff"⟩) ∧
    (∀ r, pipelineRowOf db cid = some r → r.pipeline = some "client" →
      ∃ res, putContact db cid (putBodyStage "contract-signed") = .ok res ∧
        res.converted = false ∧
        pipelineRowOf res.db cid =
          some ⟨cid, some "client", some "contract-signed"⟩) := by
  have hok := putContact_eq_ok db cid (putBodyStage "contract-signed") hex
    (Or.inr (by decide))
  refine ⟨?_, ?_, ?_⟩
  · intro hrow
    have hcur : (putDb1 db cid (putBodyStage "contract-signed")
        ex).pipelines.find? (fun r => r.contactId = cid) = none := hrow
    have htrig : putNewPipeline ((putDb1 db cid
        (putBodyStage "contract-signed") ex).pipelines.find?
        (fun r => r.contactId = cid)) (putBodyStage "contract-signed") =
          .str "prospect" ∧
        putNewStage ((putDb1 db cid
        (putBodyStage "contract-signed") ex).pipelines.find?
        (fun r => r.contactId = cid)) (putBodyStage "contract-signed") =
          .str "contract-signed" := by
      rw [hcur]
      exact ⟨rfl, rfl⟩
    rw [putPipelineWrite_trigger _ _ _ htrig] at hok
    refine ⟨_, hok, rfl, ?_⟩
    unfold pipelineRowOf convertProspectToClient
    dsimp only [putDb1]
    exact pipelineUpsert_const_rowOf db.pipelines cid (some "client")
      (some "kickoff")
  · intro r hrow hrp
    have hcur : (putDb1 db cid (putBodyStage "contract-signed")
        ex).pipelines.find? (fun r => r.contactId = cid) = some r := hrow
    have htrig : putNewPipeline ((putDb1 db cid
        (putBodyStage "contract-signed") ex).pipelines.find?
        (fun r => r.contactId = cid)) (putBodyStage "contract-signed") =
          .str "prospect" ∧
        putNewStage ((putDb1 db cid
        (putBodyStage "contract-signed") ex).pipelines.find?
        (fun r => r.contactId = cid)) (putBodyStage "contract-signed") =
          .str "contract-signed" := by
      rw [hcur]
      constructor
      · simp [putNewPipeline, putBodyStage, PutBody.empty, hrp,
          storedOrDefault]
      · rfl
    rw [putPipelineWrite_trigger _ _ _ htrig] at hok
    refine ⟨_, hok, rfl, ?_⟩
    unfold pipelineRowOf convertProspectToClient
    dsimp only [putDb1]
    exact pipelineUpsert_const_rowOf db.pipelines cid (some "client")
      (some "kickoff")
  · intro r hrow hrc
    have hcur : (putDb1 db cid (putBodyStage "contract-signed")
        ex).pipelines.find? (fun r => r.contactId = cid) = some r := hrow
    have hrow2 : db.pipelines.find? (fun x => x.contactId = cid) =
        some r := hrow
    have hcid : r.contactId = cid := by
      simpa using List.find?_some hrow2
    have hnt2 : ¬(putNewPipeline ((putDb1 db cid
        (putBodyStage "contract-signed") ex).pipelines.find?
        (fun r => r.contactId = cid)) (putBodyStage "contract-signed") =
          .str "prospect" ∧
        putNewStage ((putDb1 db cid
        (putBodyStage "contract-signed") ex).pipelines.find?
        (fun r => r.contactId = cid)) (putBodyStage "contract-signed") =
          .str "contract-signed") := by
      rw [hcur]
      simp [putNewPipeline, putBodyStage, PutBody.empty, hrc,
        storedOrDefault]
    rw [putPipelineWrite_nontrigger _ _ _ hnt2] at hok
    refine ⟨_, hok, rfl, ?_⟩
    unfold pipelineRowOf
    dsimp only [putDb1]
    have hfound := pipelineUpsert_find_of_found db.pipelines cid
      (putUpdateRow (putBodyStage "contract-signed"))
      (putCreatedRow cid (putBodyStage "contract-signed"))
      (putUpdateRow_contactId _) hrow2
    rw [hfound]
    have hval : putUpdateRow (putBodyStage "contract-signed") r =
        ⟨cid, some "client", some "contract-signed"⟩ := by
      simp [putUpdateRow, putBodyStage, PutBody.empty, JsVal.toStored,
        hcid, hrc]
    rw [hval]

end IgniteBD

namespace IgniteBD

/-- `v || null` stores a value exactly for a truthy string. -/
theorem jsOrNull_eq_some {v : JsVal} {x : String}
    (h : jsOrNull v = some x) : v = .str x ∧ x ≠ "" := by
  rcases v with _ | _ | sv
  · simp [jsOrNull, JsVal.truthy] at h
  · simp [jsOrNull, JsVal.truthy] at h
  · by_cases h0 : sv = ""
    · subst h0
      simp [jsOrNull, JsVal.truthy] at h
    · simp [jsOrNull, JsVal.truthy, JsVal.toStored, h0] at h
      subst h
      exact ⟨rfl, h0⟩

/-- A stored value comes from a string request value. -/
theorem toStored_eq_some {v : JsVal} {x : String}
    (h : v.toStored = some x) : v = .str x := by
  rcases v with _ | _ | sv <;> simp [JsVal.toStored] at h ⊢
  exact h

/-- The stage stored by the PUT pipeline update. -/
theorem putUpdateRow_stage (b : PutBody) (r : PipelineRow) :
    (putUpdateRow b r).stage =
      if b.stage ≠ .undef then b.stage.toStored else r.stage := by
  unfold putUpdateRow
  by_cases hs : b.stage ≠ .undef
  · rw [if_pos hs, if_pos hs]
  · rw [if_neg hs, if_neg hs]
    by_cases hp : b.pipeline ≠ .undef
    · rw [if_pos hp]
    · rw [if_neg hp]

/-- The pipeline stored by the PUT pipeline update. -/
theorem putUpdateRow_pipeline (b : PutBody) (r : PipelineRow) :
    (putUpdateRow b r).pipeline =
      if b.pipeline ≠ .undef then b.pipeline.toStored else r.pipeline := by
  unfold putUpdateRow
  by_cases hs : b.stage ≠ .undef
  · rw [if_pos hs]
    by_cases hp : b.pipeline ≠ .undef
    · rw [if_pos hp, if_pos hp]
    · rw [if_neg hp, if_neg hp]
  · rw [if_neg hs]
    by_cases hp : b.pipeline ≠ .undef
    · rw [if_pos hp, if_pos hp]
    · rw [if_neg hp, if_neg hp]

/-- C4 (amended): the PUT route really does evaluate triggers before every
pipeline write it performs: whenever a PUT that supplies pipeline or stage
succeeds (with the pipeline either omitted or a truthy string, as the HTTP
clients send), the stored pipeline row can never end up as the raw trigger
pair `(prospect, contract-signed)` — the trigger engine would have
converted it.  (The POST routes, by contrast, persist that exact pair: see
the counterexample.) -/
theorem C4_amended_put_triggers_before_write (db : DB) (cid : String)
    (b : PutBody) (res : RouteResult)
    (hwrite : b.pipeline ≠ .undef ∨ b.stage ≠ .undef)
    (hsane : b.pipeline = .undef ∨ b.pipeline.truthy = true)
    (hok : putContact db cid b = .ok res) :
    pipelineRowOf res.db cid ≠
      some ⟨cid, some "prospect", some "contract-signed"⟩ := by
  rcases hex : db.contacts.find? (fun c => c.id = cid) with _ | ex
  · rw [putContact] at hok
    rw [hex] at hok
    cases hok
  · rw [putContact_eq_ok db cid b hex hwrite] at hok
    injection hok with h
    subst h
    by_cases htrig : (putNewPipeline ((putDb1 db cid b ex).pipelines.find?
        (fun r => r.contactId = cid)) b = .str "prospect" ∧
      putNewStage ((putDb1 db cid b ex).pipelines.find?
        (fun r => r.contactId = cid)) b = .str "contract-signed")
    · rw [putPipelineWrite_trigger _ _ _ htrig]
      unfold pipelineRowOf convertProspectToClient
      dsimp only [putDb1]
      rw [pipelineUpsert_const_rowOf]
      simp
    · rw [putPipelineWrite_nontrigger _ _ _ htrig]
      unfold pipelineRowOf
      dsimp only [putDb1]
      rcases hcur : db.pipelines.find? (fun r => r.contactId = cid)
        with _ | r
      · rw [pipelineUpsert_find_of_none db.pipelines cid (putUpdateRow b)
          (putCreatedRow cid b) rfl hcur]
        intro heq
        have h1 : putCreatedRow cid b =
            (⟨cid, some "prospect", some "contract-signed"⟩ :
              PipelineRow) := by
          exact Option.some.inj heq
        have hstage : jsOrNull b.stage = some "contract-signed" :=
          congrArg PipelineRow.stage h1
        have hpipe : jsValOrDefault b.pipeline "prospect" = "prospect" := by
          have := congrArg PipelineRow.pipeline h1
          exact Option.some.inj this
        obtain ⟨hbs, -⟩ := jsOrNull_eq_some hstage
        have hns : putNewStage ((putDb1 db cid b ex).pipelines.find?
            (fun r => r.contactId = cid)) b = .str "contract-signed" := by
          unfold putNewStage
          rw [if_pos (by rw [hbs]; intro hc; cases hc)]
          exact hbs
        have hnp : putNewPipeline ((putDb1 db cid b ex).pipelines.find?
            (fun r => r.contactId = cid)) b = .str "prospect" := by
          unfold putNewPipeline
          rcases hsane with hu | ht
          · rw [if_neg (by rw [hu]; intro hc; exact hc rfl)]
            have hcur2 : (putDb1 db cid b ex).pipelines.find?
                (fun r => r.contactId = cid) = none := hcur
            rw [hcur2]
          · rcases hbp : b.pipeline with _ | _ | pv
            · rw [hbp] at ht
              cases ht
            · rw [hbp] at ht
              cases ht
            · have hpv : pv ≠ "" := by
                rw [hbp] at ht
                simpa [JsVal.truthy] using ht
              rw [hbp] at hpipe
              have hpvp : pv = "prospect" := by
                simpa [jsValOrDefault, hpv] using hpipe
              rw [hpvp]
              simp
        exact htrig ⟨hnp, hns⟩
      · rw [pipelineUpsert_find_of_found db.pipelines cid (putUpdateRow b)
          (putCreatedRow cid b) (fun x => putUpdateRow_contactId b x) hcur]
        intro heq
        have h1 : putUpdateRow b r =
            (⟨cid, some "prospect", some "contract-signed"⟩ :
              PipelineRow) := Option.some.inj heq
        have hstage : (putUpdateRow b r).stage = some "contract-signed" :=
          congrArg PipelineRow.stage h1
        have hpipe : (putUpdateRow b r).pipeline = some "prospect" :=
          congrArg PipelineRow.pipeline h1
        rw [putUpdateRow_stage] at hstage
        rw [putUpdateRow_pipeline] at hpipe
        have hcur2 : (putDb1 db cid b ex).pipelines.find?
            (fun x => x.contactId = cid) = some r := hcur
        have hns : putNewStage ((putDb1 db cid b ex).pipelines.find?
            (fun x => x.contactId = cid)) b = .str "contract-signed" := by
          unfold putNewStage
          rw [hcur2]
          by_cases hbs : b.stage ≠ .undef
          · rw [if_pos hbs]
            rw [if_pos hbs] at hstage
            exact toStored_eq_some hstage
          · rw [if_neg hbs]
            rw [if_neg hbs] at hstage
            simp [hstage, storedOrNullVal]
        have hnp : putNewPipeline ((putDb1 db cid b ex).pipelines.find?
            (fun x => x.contactId = cid)) b = .str "prospect" := by
          unfold putNewPipeline
          rw [hcur2]
          by_cases hbp : b.pipeline ≠ .undef
          · rw [if_pos hbp]
            rw [if_pos hbp] at hpipe
            exact toStored_eq_some hpipe
          · rw [if_neg hbp]
            rw [if_neg hbp] at hpipe
            simp [hpipe, storedOrDefault]
        exact htrig ⟨hnp, hns⟩

end IgniteBD

namespace IgniteBD

/-- C8 (amended): an invalid stage/pipeline combination is silently
accepted: a PUT proposing any non-trigger pair `(p, s)` with
`isValidStageForPipeline s p = false` succeeds and persists the pair
unchanged — `isValidStageForPipeline` exists in the configuration but is
never invoked on the write path, and no `InvalidStageForPipeline` error
exists. -/
theorem C8_amended_invalid_stage_silently_accepted (db : DB) (cid : String)
    (p s : String) {ex : Contact}
    (hex : db.contacts.find? (fun c => c.id = cid) = some ex)
    (hp : p ≠ "") (hs : s ≠ "")
    (hnt : ¬(p = "prospect" ∧ s = "contract-signed"))
    (hinvalid : isValidStageForPipeline s p = false) :
    ∃ res, putContact db cid (putBodyBoth p s) = .ok res ∧
      res.converted = false ∧
      pipelineRowOf res.db cid = some ⟨cid, some p, some s⟩ :=
  putContact_nontrigger_pair db cid p s hex hp hs hnt

/-- C6 (amended): the tenant-scoped list read really is tenant-isolated:
every contact returned by `GET /api/contacts?companyHQId=t` belongs to
tenant `t`, so another tenant's contact (even with an identical email) is
never in the response.  (The by-id read, update and delete, in contrast,
take no tenant at all: see the counterexample.) -/
theorem C6_amended_list_read_tenant_isolated (db : DB) (t : String)
    (pf sf : Option String) (cs : List Contact)
    (hcs : listContacts db t pf sf = .ok cs) :
    ∀ c ∈ cs, c.crmId = t := by
  intro c hc
  unfold listContacts at hcs
  by_cases ht : t = ""
  · rw [if_pos ht] at hcs
    cases hcs
  · rw [if_neg ht] at hcs
    injection hcs with h
    subst h
    have h1 := List.mem_filter.mp hc
    have h2 := List.mem_filter.mp h1.1
    simpa using h2.2

/-- C9 (amended): the race is real in general: starting from any store in
which tenant `t` has no contact with the normalized form of email `e`, the
interleaving lookup-A, lookup-B, insert-A, insert-B of two
universal-create requests for `(t, e)` adds exactly two contact rows
sharing `(t, normalized e)`; no error is raised and nothing retries,
because the schema has no uniqueness constraint on `(crmId, email)`. -/
theorem C9_amended_race_duplicates (db : DB) (t e : String)
    (hfind : uniFindContact db t e = none) :
    contactCountByEmail
      (runSchedule db ⟨t, e, .start⟩ ⟨t, e, .start⟩
        [true, false, true, false]).1 t e =
      contactCountByEmail db t e + 2 := by
  simp only [runSchedule, raceStep, hfind]
  simp only [uniCreateContact, contactCountByEmail]
  simp [List.filter_append]

end IgniteBD

namespace IgniteBD

/-- C5 (amended): in the email-matched merge of `POST /api/contacts` a
supplied field overwrites the stored value only when it is truthy
(non-empty, non-null); falsy supplied values — `null` and the empty string
— keep the stored value, and the stored email is never touched.  The
claimed `undefined`-sensitive semantics holds only for the id-matched PUT
route, not for this tenant-and-email-matched merge. -/
theorem C5_amended_post_merge_truthy_only (db : DB) (b : PostBody)
    {ex : Contact}
    (hcrm : ¬ b.crmId = "")
    (hten : db.companyHQs.contains b.crmId = true)
    (hnam : b.contactCompanyName = .undef)
    (hem : b.email.truthy = true)
    (hfound : db.contacts.find?
      (fun c => c.crmId = b.crmId ∧ c.email = some b.email.asString) =
        some ex) :
    ∃ res, createContactPost db b = .ok res ∧
      res.contact = { ex with
        firstName := jsOrStored b.firstName ex.firstName,
        lastName := jsOrStored b.lastName ex.lastName,
        goesBy := jsOrStored b.goesBy ex.goesBy,
        phone := jsOrStored b.phone ex.phone,
        title := jsOrStored b.title ex.title,
        contactCompanyId := jsOrStored b.contactCompanyId
          ex.contactCompanyId,
        buyerDecision := jsOrStored b.buyerDecision ex.buyerDecision,
        howMet := jsOrStored b.howMet ex.howMet,
        notes := jsOrStored b.notes ex.notes } ∧
      res.contact.email = ex.email ∧
      res.db.contacts.length = db.contacts.length := by
  unfold createContactPost
  rw [if_neg hcrm]
  rw [if_neg (not_not_intro hten)]
  rw [hnam]
  rw [if_neg (show ¬ (JsVal.truthy .undef = true ∧
      ¬ JsVal.truthy b.contactCompanyId = true) by simp [JsVal.truthy])]
  dsimp only []
  rw [if_pos hem]
  rw [hfound]
  dsimp only []
  by_cases hpl : b.pipeline.truthy = true
  · rw [if_pos hpl]
    refine ⟨_, rfl, rfl, rfl, ?_⟩
    simp
  · rw [if_neg hpl]
    refine ⟨_, rfl, rfl, rfl, ?_⟩
    simp

end IgniteBD

namespace IgniteBD

/-- The company-match predicate depends on the lookup name only through its
trimmed, lowercased key. -/
theorem companyNameMatches_key_congr {s1 s2 : String}
    (hkey : jsLower (jsTrim s1) = jsLower (jsTrim s2)) (c : Company) :
    companyNameMatches c (jsTrim s1) = companyNameMatches c (jsTrim s2) := by
  unfold companyNameMatches
  cases c.companyName with
  | none => rfl
  | some n => rw [hkey]

/-- A fresh matching company appended to a store with no match becomes the
lookup result. -/
theorem findCompanyByName_append (db db2 : DB) (t key : String)
    (nc : Company)
    (hc : db2.companies = db.companies ++ [nc])
    (hT : nc.companyHQId = t)
    (hm : companyNameMatches nc key = true)
    (hnone : findCompanyByName db t key = none) :
    findCompanyByName db2 t key = some nc := by
  unfold findCompanyByName at hnone ⊢
  rw [hc, List.filter_append, List.find?_append, hnone]
  simp [List.filter, hT, hm]

end IgniteBD

namespace IgniteBD

/-- Appending a company whose key had no match preserves the per-tenant
name-uniqueness invariant. -/
theorem companiesUnique_append (db : DB) (t key : String) (nc : Company)
    (hu : companiesUnique db)
    (hT : nc.companyHQId = t)
    (hkeync : companyKey nc = some key)
    (hnomatch : ∀ c ∈ db.companies, c.companyHQId = t →
      companyKey c ≠ some key) :
    (db.companies ++ [nc]).Pairwise (fun c d =>
      c.companyHQId = d.companyHQId →
        ∀ k, companyKey c = some k → companyKey d ≠ some k) := by
  rw [List.pairwise_append]
  refine ⟨hu, List.pairwise_singleton _ _, ?_⟩
  intro c hc d hd
  have hdnc : d = nc := List.mem_singleton.mp hd
  subst hdnc
  intro hsame k hck hdk
  have hkk : k = key := by
    rw [hkeync] at hdk
    exact (Option.some.inj hdk).symm
  subst hkk
  exact hnomatch c hc (hsame.trans hT) hck

/-- A `none` company lookup means no stored company of the tenant carries
the key of the looked-up (already trimmed) name. -/
theorem findCompanyByName_none_no_key (db : DB) (t s : String)
    (hnone : findCompanyByName db t (jsTrim s) = none) :
    ∀ c ∈ db.companies, c.companyHQId = t →
      companyKey c ≠ some (jsLower (jsTrim s)) := by
  intro c hc hct hkey
  have hmem : c ∈ db.companies.filter (fun x => x.companyHQId = t) :=
    List.mem_filter.mpr ⟨hc, by simp [hct]⟩
  have hfail := List.find?_eq_none.mp hnone c hmem
  apply hfail
  unfold companyKey at hkey
  rcases hn : c.companyName with _ | n
  · rw [hn] at hkey
    dsimp only [] at hkey
    cases hkey
  · rw [hn] at hkey
    dsimp only [] at hkey
    by_cases h0 : n = ""
    · rw [if_pos h0] at hkey
      cases hkey
    · rw [if_neg h0] at hkey
      have hkeq := Option.some.inj hkey
      unfold companyNameMatches
      rw [hn]
      simp [h0, hkeq]

end IgniteBD

namespace IgniteBD

/-- The key of a company freshly created from a trimmed non-empty name. -/
theorem companyKey_freshCompany (db : DB) (t s : String)
    (h1 : jsTrim s ≠ "") :
    companyKey (freshCompany db t (jsTrim s)) =
      some (jsLower (jsTrim s)) := by
  unfold companyKey freshCompany
  dsimp only []
  rw [if_neg h1, jsTrim_idem]

/-- C7: company resolution is idempotent across trim/case variants: for two
names equal up to trimming and lowercasing (both non-empty after trim),
resolving the second right after the first returns the same company id, and
the per-tenant one-company-per-normalized-name invariant is preserved. -/
theorem C7_company_resolution_idempotent (db : DB) (t s1 s2 : String)
    (hkey : jsLower (jsTrim s1) = jsLower (jsTrim s2))
    (h1 : jsTrim s1 ≠ "")
    (hu : companiesUnique db) :
    (resolveCompanyPost (resolveCompanyPost db t s1).2 t s2).1 =
      (resolveCompanyPost db t s1).1 ∧
    companiesUnique (resolveCompanyPost (resolveCompanyPost db t s1).2
      t s2).2 := by
  have hcong : ∀ dbx : DB,
      findCompanyByName dbx t (jsTrim s2) =
        findCompanyByName dbx t (jsTrim s1) := by
    intro dbx
    unfold findCompanyByName
    congr 1
    funext c
    exact (companyNameMatches_key_congr hkey c).symm
  rcases hf : findCompanyByName db t (jsTrim s1) with _ | c
  · have hr1 : resolveCompanyPost db t s1 =
        ((freshCompany db t (jsTrim s1)).id,
          { db with
            companies := (db.companies ++ [freshCompany db t (jsTrim s1)]),
            nextId := db.nextId + 1 }) := by
      unfold resolveCompanyPost
      dsimp only []
      rw [hf]
    have hmatch : companyNameMatches (freshCompany db t (jsTrim s1))
        (jsTrim s2) = true := by
      unfold companyNameMatches freshCompany
      dsimp only []
      rw [jsTrim_idem, hkey]
      simp [h1]
    have hnone2 : findCompanyByName db t (jsTrim s2) = none := by
      rw [hcong db]
      exact hf
    have hfound2 : findCompanyByName
        { db with
          companies := (db.companies ++ [freshCompany db t (jsTrim s1)]),
          nextId := db.nextId + 1 } t (jsTrim s2) =
        some (freshCompany db t (jsTrim s1)) :=
      findCompanyByName_append db _ t (jsTrim s2) _ rfl rfl hmatch hnone2
    have hr2 : resolveCompanyPost (resolveCompanyPost db t s1).2 t s2 =
        ((freshCompany db t (jsTrim s1)).id,
          (resolveCompanyPost db t s1).2) := by
      rw [hr1]
      unfold resolveCompanyPost
      dsimp only []
      rw [hfound2]
    constructor
    · rw [hr2, hr1]
    · rw [hr2, hr1]
      unfold companiesUnique
      dsimp only []
      exact companiesUnique_append db t (jsLower (jsTrim s1)) _ hu rfl
        (companyKey_freshCompany db t s1 h1)
        (findCompanyByName_none_no_key db t s1 hf)
  · have hr1 : resolveCompanyPost db t s1 = (c.id, db) := by
      unfold resolveCompanyPost
      dsimp only []
      rw [hf]
    have hr2 : resolveCompanyPost db t s2 = (c.id, db) := by
      unfold resolveCompanyPost
      dsimp only []
      rw [hcong db, hf]
    rw [hr1]
    dsimp only []
    rw [hr2]
    exact ⟨rfl, hu⟩

end IgniteBD

namespace IgniteBD

/-- C2 witness: the passthrough half at the concrete pair
`(client, renewal)` on a stored contact. -/
theorem C2_witness :
    (exDbC.contacts.find? (fun c => c.id = "c1") = some exContact ∧
     "client" ∈ OFFICIAL_PIPELINES ∧ "renewal" ∈ ALL_STAGES) ∧
    (∃ res, putContact exDbC "c1" (putBodyBoth "client" "renewal") =
        .ok res ∧
      ((("client" = "prospect" ∧ "renewal" = "contract-signed") →
        res.converted = true ∧
        pipelineRowOf res.db "c1" =
          some ⟨"c1", some "client", some "kickoff"⟩) ∧
      (¬("client" = "prospect" ∧ "renewal" = "contract-signed") →
        res.converted = false ∧
        pipelineRowOf res.db "c1" =
          some ⟨"c1", some "client", some "renewal"⟩))) :=
  ⟨⟨by decide, by decide, by decide⟩,
   C2_trigger_determinism_and_passthrough exDbC "c1" "client" "renewal"
     ((by decide) :
       exDbC.contacts.find? (fun c => c.id = "c1") = some exContact)
     (by decide) (by decide)⟩

/-- C4 witness (amended theorem): the concrete non-trigger PUT result
never holds the raw trigger pair. -/
theorem C4_amended_witness :
    (((putBodyBoth "client" "renewal").pipeline ≠ .undef ∨
      (putBodyBoth "client" "renewal").stage ≠ .undef) ∧
     ((putBodyBoth "client" "renewal").pipeline = .undef ∨
      (putBodyBoth "client" "renewal").pipeline.truthy = true) ∧
     putContact exDbC "c1" (putBodyBoth "client" "renewal") =
       .ok exPutClientRenewal) ∧
    pipelineRowOf exPutClientRenewal.db "c1" ≠
      some ⟨"c1", some "prospect", some "contract-signed"⟩ :=
  ⟨⟨by decide, by decide, by rfl⟩,
   C4_amended_put_triggers_before_write exDbC "c1"
     (putBodyBoth "client" "renewal") exPutClientRenewal
     (by decide) (by decide) (by rfl)⟩

/-- C5 witness (amended theorem): merging a body carrying a null first
name and a new phone into the stored contact keeps the stored first name
and takes the truthy phone. -/
theorem C5_amended_witness :
    ((¬ bodyNullFirst.crmId = "") ∧
     exDbC.companyHQs.contains "T" = true ∧
     exDbC.contacts.find? (fun c => c.crmId = "T" ∧
       c.email = some "j@x.com") = some exContact) ∧
    (∃ res, createContactPost exDbC bodyNullFirst = .ok res ∧
      res.contact = { exContact with
        firstName := jsOrStored .null exContact.firstName,
        lastName := jsOrStored .undef exContact.lastName,
        goesBy := jsOrStored .undef exContact.goesBy,
        phone := jsOrStored (.str "555") exContact.phone,
        title := jsOrStored .undef exContact.title,
        contactCompanyId := jsOrStored .undef exContact.contactCompanyId,
        buyerDecision := jsOrStored .undef exContact.buyerDecision,
        howMet := jsOrStored .undef exContact.howMet,
        notes := jsOrStored .undef exContact.notes } ∧
      res.contact.email = exContact.email ∧
      res.db.contacts.length = exDbC.contacts.length) :=
  ⟨⟨by decide, by decide, by decide⟩,
   C5_amended_post_merge_truthy_only exDbC bodyNullFirst
     (by decide) (by decide) (by decide) (by decide)
     ((by decide) : exDbC.contacts.find? (fun c =>
       c.crmId = bodyNullFirst.crmId ∧
       c.email = some bodyNullFirst.email.asString) = some exContact)⟩

/-- C6 witness (amended theorem): the contact returned by the concrete
tenant-scoped list belongs to that tenant. -/
theorem C6_amended_witness :
    (listContacts exDbT12 "T1" none none = .ok [exContactT1] ∧
     exContactT1 ∈ [exContactT1]) ∧
    exContactT1.crmId = "T1" :=
  ⟨⟨by rfl, by decide⟩,
   C6_amended_list_read_tenant_isolated exDbT12 "T1" none none
     [exContactT1] (by rfl) exContactT1 (by decide)⟩

/-- C7 witness: `" Acme Corp "` then `"acme corp"` resolve to the same
company id in an empty store, preserving uniqueness. -/
theorem C7_witness :
    (jsLower (jsTrim " Acme Corp ") = jsLower (jsTrim "acme corp") ∧
     jsTrim " Acme Corp " ≠ "" ∧ companiesUnique exDb) ∧
    ((resolveCompanyPost (resolveCompanyPost exDb "T" " Acme Corp ").2
        "T" "acme corp").1 =
      (resolveCompanyPost exDb "T" " Acme Corp ").1 ∧
    companiesUnique (resolveCompanyPost
      (resolveCompanyPost exDb "T" " Acme Corp ").2 "T" "acme corp").2) :=
  ⟨⟨by decide, by decide, List.Pairwise.nil⟩,
   C7_company_resolution_idempotent exDb "T" " Acme Corp " "acme corp"
     (by decide) (by decide) List.Pairwise.nil⟩

/-- C8 witness (amended theorem): the invalid pair `(prospect, kickoff)`
is accepted and persisted on the concrete store. -/
theorem C8_amended_witness :
    (exDbC.contacts.find? (fun c => c.id = "c1") = some exContact ∧
     "prospect" ≠ "" ∧ "kickoff" ≠ "" ∧
     ¬("prospect" = "prospect" ∧ "kickoff" = "contract-signed") ∧
     isValidStageForPipeline "kickoff" "prospect" = false) ∧
    (∃ res, putContact exDbC "c1" (putBodyBoth "prospect" "kickoff") =
        .ok res ∧
      res.converted = false ∧
      pipelineRowOf res.db "c1" =
        some ⟨"c1", some "prospect", some "kickoff"⟩) :=
  ⟨⟨by decide, by decide, by decide, by decide, by decide⟩,
   C8_amended_invalid_stage_silently_accepted exDbC "c1" "prospect"
     "kickoff"
     ((by decide) :
       exDbC.contacts.find? (fun c => c.id = "c1") = some exContact)
     (by decide) (by decide) (by decide) (by decide)⟩

/-- C9 witness (amended theorem): the race from the concrete empty store
for `(T, "J@X.com")`. -/
theorem C9_amended_witness :
    uniFindContact exDb "T" "J@X.com" = none ∧
    contactCountByEmail
      (runSchedule exDb ⟨"T", "J@X.com", .start⟩ ⟨"T", "J@X.com", .start⟩
        [true, false, true, false]).1 "T" "J@X.com" =
      contactCountByEmail exDb "T" "J@X.com" + 2 :=
  ⟨by decide, C9_amended_race_duplicates exDb "T" "J@X.com" (by decide)⟩

/-- C10 witness: the stage-only update on the concrete contact currently
in the client pipeline writes the stage as-is without converting. -/
theorem C10_witness :
    (exDbClient.contacts.find? (fun c => c.id = "c1") = some exContact ∧
     pipelineRowOf exDbClient "c1" =
       some ⟨"c1", some "client", some "sustainment"⟩) ∧
    (∃ res, putContact exDbClient "c1" (putBodyStage "contract-signed") =
        .ok res ∧
      res.converted = false ∧
      pipelineRowOf res.db "c1" =
        some ⟨"c1", some "client", some "contract-signed"⟩) :=
  ⟨⟨by decide, by decide⟩,
   (C10_stage_only_contract_signed exDbClient "c1"
     ((by decide) :
       exDbClient.contacts.find? (fun c => c.id = "c1") =
         some exContact)).2.2
     ⟨"c1", some "client", some "sustainment"⟩ (by decide) (by decide)⟩

end IgniteBD
